import Mathlib

/-!
# aws-sg-updater: the rule reconciler, group resolution and identity file

A shallow embedding of `aws-sg-updater.go` and `pkg/ec2client/Ec2Client.go`.

* Go strings are carried as Lean strings; `strings.Contains` is substring
  containment on the sequence of characters.
* `int32` ports are integers; the one conversion `int32(port)` wraps explicitly.
* A Go `(value, error)` pair whose value is the zero value on error is an
  `Except`; where the source returns `(nil, nil)` the pair is kept as a pair.
* The EC2 service, the file system, the clock, the current user and the public-IP
  service are outside the repository: their answers are fields of `Ec2Client` and
  `Env`, and every request sent to EC2 is recorded in a list of `Call`s.
* `log.Printf` lines are not recorded.
-/

namespace AwsSgUpdater

/-- The text of a Go `error` value (`errors.New msg`, or whatever a library returned). -/
abbrev Error := String

/-! ## The SDK types the program reads and builds -/

/-- `types.IpRange`: both fields are `*string`, nil-checked by `findOldCidr`. -/
structure IpRange where
  CidrIp : Option String
  Description : Option String
  deriving DecidableEq, Repr

/-- `types.IpPermission`: the protocol, the port range and the IPv4 ranges. -/
structure IpPermission where
  IpProtocol : Option String
  FromPort : Int
  ToPort : Int
  IpRanges : List IpRange
  deriving DecidableEq, Repr

/-- `types.SecurityGroup`. `GroupId` and `GroupName` are `*string` in the SDK; the
program dereferences both without a nil check (the service fills them in every group it
returns), and they are carried here as plain strings. -/
structure SecurityGroup where
  GroupId : String
  GroupName : String
  IpPermissions : List IpPermission
  deriving DecidableEq, Repr

/-- `types.Filter`. -/
structure Filter where
  Name : Option String
  Values : List String
  deriving DecidableEq, Repr

/-- `ec2.DescribeSecurityGroupsInput`. -/
structure DescribeSecurityGroupsInput where
  GroupIds : List String
  Filters : List Filter
  deriving DecidableEq, Repr

/-- `ec2.AuthorizeSecurityGroupIngressInput`. -/
structure AuthorizeSecurityGroupIngressInput where
  GroupId : Option String
  IpPermissions : List IpPermission
  deriving DecidableEq, Repr

/-- `ec2.RevokeSecurityGroupIngressInput`. -/
structure RevokeSecurityGroupIngressInput where
  GroupId : Option String
  IpPermissions : List IpPermission
  deriving DecidableEq, Repr

/-- One request sent to the EC2 service. -/
inductive Call where
  | describe (input : DescribeSecurityGroupsInput)
  | authorize (input : AuthorizeSecurityGroupIngressInput)
  | revoke (input : RevokeSecurityGroupIngressInput)
  deriving DecidableEq, Repr

/-- The answers of `ec2Client`, the process-wide `*ec2.Client`: what each operation
returns for each request (`none` is a nil error). -/
structure Ec2Client where
  DescribeSecurityGroups : DescribeSecurityGroupsInput → Except Error (List SecurityGroup)
  AuthorizeSecurityGroupIngress : AuthorizeSecurityGroupIngressInput → Option Error
  RevokeSecurityGroupIngress : RevokeSecurityGroupIngressInput → Option Error

/-- `EntryDetails` of `aws-sg-updater.go`. -/
structure EntryDetails where
  Port : Int
  Cidr : String
  Uuid : String
  Description : String
  deriving DecidableEq, Repr

/-! ## `strings.Contains` -/

/-- Scan of `strings.Contains` over the characters of `s`: is `sub` a prefix of some
suffix of `s`? -/
def containsAt (sub : List Char) : List Char → Bool
  | [] => sub.isEmpty
  | c :: cs => sub.isPrefixOf (c :: cs) || containsAt sub cs

/-- `strings.Contains(s, substr)`: reports whether `substr` is within `s`. -/
def Contains (s substr : String) : Bool :=
  containsAt substr.data s.data

/-! ## `pkg/ec2client/Ec2Client.go` -/

/-- `getSecurityGroupById`: one `DescribeSecurityGroups` request; a request error is
returned as is, zero groups give `(nil, nil)`, more than one group gives an error. -/
def getSecurityGroupById (c : Ec2Client) (input : DescribeSecurityGroupsInput) :
    (Option SecurityGroup × Option Error) × List Call :=
  match c.DescribeSecurityGroups input with
  | .error err => ((none, some err), [Call.describe input])
  | .ok groups =>
    match groups with
    | [] => ((none, none), [Call.describe input])
    | [g] => ((some g, none), [Call.describe input])
    | _ :: _ :: _ => ((none, some "DescribeSecurityGroups bad Results"), [Call.describe input])

/-- `GetSecurityGroupById`. -/
def GetSecurityGroupById (c : Ec2Client) (securityGroupId : String) :
    (Option SecurityGroup × Option Error) × List Call :=
  getSecurityGroupById c { GroupIds := [securityGroupId], Filters := [] }

/-- `GetSecurityGroupByFilter`. -/
def GetSecurityGroupByFilter (c : Ec2Client) (filterKey filterValue : String) :
    (Option SecurityGroup × Option Error) × List Call :=
  getSecurityGroupById c
    { GroupIds := [], Filters := [{ Name := some filterKey, Values := [filterValue] }] }

/-- The request built by `AuthorizeSecurityGroupIngress`. -/
def authorizeInput (securityGroupId : String) (port : Int) (cidr description : String) :
    AuthorizeSecurityGroupIngressInput :=
  { GroupId := some securityGroupId,
    IpPermissions :=
      [{ IpProtocol := some "tcp", FromPort := port, ToPort := port,
         IpRanges := [{ CidrIp := some cidr, Description := some description }] }] }

/-- `AuthorizeSecurityGroupIngress`: sends the request and returns its error. -/
def AuthorizeSecurityGroupIngress (c : Ec2Client) (securityGroupId : String) (port : Int)
    (cidr description : String) : Option Error × List Call :=
  let input := authorizeInput securityGroupId port cidr description
  (c.AuthorizeSecurityGroupIngress input, [Call.authorize input])

/-- The request built by `RevokeSecurityGroupIngress`. -/
def revokeInput (securityGroupId : String) (port : Int) (cidr : String) :
    RevokeSecurityGroupIngressInput :=
  { GroupId := some securityGroupId,
    IpPermissions :=
      [{ IpProtocol := some "tcp", FromPort := port, ToPort := port,
         IpRanges := [{ CidrIp := some cidr, Description := none }] }] }

/-- `RevokeSecurityGroupIngress`: sends the request and returns its error. -/
def RevokeSecurityGroupIngress (c : Ec2Client) (securityGroupId : String) (port : Int)
    (cidr : String) : Option Error × List Call :=
  let input := revokeInput securityGroupId port cidr
  (c.RevokeSecurityGroupIngress input, [Call.revoke input])

/-! ## The reconciler of `aws-sg-updater.go` -/

/-- The inner loop of `findOldCidr` over the ranges of one permission: `some cidr` when
the loop returns from the function, `none` when it runs to its end. -/
def findInRanges (uuid : String) : List IpRange → Option String
  | [] => none
  | ipRange :: rest =>
    match ipRange.Description with
    | none => findInRanges uuid rest
    | some description =>
      match ipRange.CidrIp with
      | none => findInRanges uuid rest
      | some cidrIp =>
        if Contains description uuid then some cidrIp else findInRanges uuid rest

/-- The outer loop of `findOldCidr` over the permissions of the group. -/
def findInPermissions (details : EntryDetails) : List IpPermission → String
  | [] => ""
  | inPermission :: rest =>
    if inPermission.FromPort ≠ details.Port then findInPermissions details rest
    else if inPermission.ToPort ≠ details.Port then findInPermissions details rest
    else
      match findInRanges details.Uuid inPermission.IpRanges with
      | some cidrIp => cidrIp
      | none => findInPermissions details rest

/-- `findOldCidr`. -/
def findOldCidr (securityGroup : SecurityGroup) (details : EntryDetails) : String :=
  findInPermissions details securityGroup.IpPermissions

/-- `cleanupOldEntryIfExists`: the returned flag and the requests sent. -/
def cleanupOldEntryIfExists (c : Ec2Client) (securityGroup : SecurityGroup)
    (details : EntryDetails) : Bool × List Call :=
  let oldCidr := findOldCidr securityGroup details
  if oldCidr = "" then (true, [])
  else if oldCidr = details.Cidr then (false, [])
  else
    match RevokeSecurityGroupIngress c securityGroup.GroupId details.Port oldCidr with
    | (some _, calls) => (true, calls)
    | (none, calls) => (true, calls)

/-- `createNewEntry`: the requests sent. -/
def createNewEntry (c : Ec2Client) (securityGroup : SecurityGroup) (details : EntryDetails) :
    List Call :=
  (AuthorizeSecurityGroupIngress c securityGroup.GroupId details.Port details.Cidr
    details.Description).2

/-- The last statement of `updateSecurityGroup`:
`if cleanupOldEntryIfExists(...) { createNewEntry(...) }`. -/
def reconcile (c : Ec2Client) (securityGroup : SecurityGroup) (details : EntryDetails) :
    List Call :=
  match cleanupOldEntryIfExists c securityGroup details with
  | (true, calls) => calls ++ createNewEntry c securityGroup details
  | (false, calls) => calls

/-! ## Security-group resolution -/

/-- `getSecurityGroupByName`. -/
def getSecurityGroupByName (c : Ec2Client) (securityGroupName : String) (useNameTag : Bool) :
    (Option SecurityGroup × Option Error) × List Call :=
  if useNameTag then GetSecurityGroupByFilter c "tag:Name" securityGroupName
  else GetSecurityGroupByFilter c "group-name" securityGroupName

/-- `getSecurityGroupSilent`. -/
def getSecurityGroupSilent (c : Ec2Client) (securityGroupId securityGroupName : String)
    (useNameTag : Bool) : (Option SecurityGroup × Option Error) × List Call :=
  if securityGroupId ≠ "" then GetSecurityGroupById c securityGroupId
  else if securityGroupName ≠ "" then getSecurityGroupByName c securityGroupName useNameTag
  else ((none, some "Neither security group id nor security group name provided"), [])

/-- `getSecurityGroup`: a non-nil `err` is only logged; a nil group returns a new
error; otherwise the group and `err` are returned. -/
def getSecurityGroup (c : Ec2Client) (securityGroupId securityGroupName : String)
    (useNameTag : Bool) : (Option SecurityGroup × Option Error) × List Call :=
  match getSecurityGroupSilent c securityGroupId securityGroupName useNameTag with
  | ((securityGroup, err), calls) =>
    match securityGroup with
    | none => ((none, some "Security group not found"), calls)
    | some g => ((some g, err), calls)

/-! ## The machine the program runs on -/

/-- The files of the machine: path and content. -/
abbrev Files := List (String × String)

/-- The command-line flags and the answers of everything outside the repository that
`getEntryDetails` consults. -/
structure Env where
  /-- Flag `--security-group-id`. -/
  securityGroupIdParam : String
  /-- Flag `--security-group-name`. -/
  securityGroupNameParam : String
  /-- Flag `--use-name-tag`. -/
  useNameTag : Bool
  /-- Flag `--port`. -/
  portParam : String
  /-- Flag `--date-format`. -/
  dateFormat : String
  /-- Library function `strconv.Atoi`. -/
  Atoi : String → Except Error Int
  /-- Answer of `ipify.GetIp()`. -/
  GetIp : Except Error String
  /-- Library function `configdir.LocalConfig`. -/
  LocalConfig : String → String
  /-- Library function `configdir.MakePath`. -/
  MakePath : String → Option Error
  /-- Answer of `user.Current()`: the user name, or the error. -/
  CurrentUser : Except Error String
  /-- Answer of `time.Now().Format(layout)` for each layout. -/
  NowFormat : String → String
  /-- Answer of `uuid.NewString()`. -/
  NewString : String
  /-- The files present when the program starts. -/
  files : Files
  /-- Answer of `os.Create`: the error, if creating the file fails. -/
  CreateErr : String → Option Error
  /-- Answer of `file.WriteString`: `some n` when the write fails after `n` characters. -/
  WriteFails : Option Nat
  /-- Answer of `ioutil.ReadFile` for a file that is present: the error, if reading fails. -/
  ReadErr : String → Option Error

/-- Conversion `int32(port)` of a Go `int`: the low 32 bits, read as a signed number. -/
def toInt32 (n : Int) : Int :=
  (n + 2147483648) % 4294967296 - 2147483648

/-- `getCidr`: the public IP with the `/32` suffix. -/
def getCidr (env : Env) : Except Error String :=
  match env.GetIp with
  | .error err => .error err
  | .ok ip => .ok (ip ++ "/32")

/-- `getPersistedUuidFile`: the path of the identity file. -/
def getPersistedUuidFile (env : Env) : Except Error String :=
  let configPath := env.LocalConfig "aws-sg-updater"
  match env.MakePath configPath with
  | some err => .error err
  | none => .ok (configPath ++ "/uuid")

/-- The files after `path` received the content `content`. -/
def putFile (fs : Files) (path content : String) : Files :=
  (path, content) :: fs.filter (fun entry => entry.1 ≠ path)

/-- `initializeUuidFile`: creates (truncates) the file and writes a new identifier into
it; only the error of `os.Create` is looked at, the result of `file.WriteString` is
dropped. -/
def initializeUuidFile (env : Env) (fs : Files) (uuidFile : String) : Option Error × Files :=
  match env.CreateErr uuidFile with
  | some err => (some err, fs)
  | none =>
    match env.WriteFails with
    | none => (none, putFile fs uuidFile env.NewString)
    | some n => (none, putFile fs uuidFile (env.NewString.take n))

/-- `readUuidFile`. -/
def readUuidFile (env : Env) (fs : Files) (uuidFile : String) : Except Error String :=
  match fs.lookup uuidFile with
  | none => .error ("open " ++ uuidFile ++ ": no such file or directory")
  | some data =>
    match env.ReadErr uuidFile with
    | some err => .error err
    | none => .ok data

/-- `getPersistedUuid`: the identifier (or the error) and the files afterwards.
`os.Stat` reports that the file does not exist exactly when it is absent. -/
def getPersistedUuid (env : Env) : Except Error String × Files :=
  match getPersistedUuidFile env with
  | .error err => (.error err, env.files)
  | .ok uuidFile =>
    if env.files.lookup uuidFile = none then
      match initializeUuidFile env env.files uuidFile with
      | (some err, fs) => (.error err, fs)
      | (none, fs) => (readUuidFile env fs uuidFile, fs)
    else (readUuidFile env env.files uuidFile, env.files)

/-- `getFormattedDate`: the parameter is not used, the layout is the literal
`"2006-01-02"`. -/
def getFormattedDate (env : Env) (_dateFormat : String) : String :=
  env.NowFormat "2006-01-02"

/-- `getCurrentUserName`. -/
def getCurrentUserName (env : Env) : Except Error String :=
  env.CurrentUser

/-- `buildDescription`: `fmt.Sprintf("%s %s port:%d - %s", username, formattedDate, port, uuid)`. -/
def buildDescription (env : Env) (uuid : String) (port : Int) : Except Error String :=
  let formattedDate := getFormattedDate env env.dateFormat
  match getCurrentUserName env with
  | .error err => .error err
  | .ok username =>
    .ok (username ++ " " ++ formattedDate ++ " port:" ++ toString port ++ " - " ++ uuid)

/-- `getEntryDetails`: the details (or the first error) and the files afterwards. -/
def getEntryDetails (env : Env) : Except Error EntryDetails × Files :=
  match env.Atoi env.portParam with
  | .error err => (.error err, env.files)
  | .ok port =>
    match getCidr env with
    | .error err => (.error err, env.files)
    | .ok cidr =>
      match getPersistedUuid env with
      | (.error err, fs) => (.error err, fs)
      | (.ok uuid, fs) =>
        match buildDescription env uuid port with
        | .error err => (.error err, fs)
        | .ok description =>
          (.ok { Port := toInt32 port, Cidr := cidr, Uuid := uuid, Description := description },
            fs)

/-- `updateSecurityGroup`: the requests sent to EC2 by one run. `getSecurityGroup` returns
an error whenever it returns no group, so the case of no group and no error does not
arise. -/
def updateSecurityGroup (c : Ec2Client) (env : Env) : List Call :=
  match (getEntryDetails env).1 with
  | .error _ => []
  | .ok details =>
    match getSecurityGroup c env.securityGroupIdParam env.securityGroupNameParam
        env.useNameTag with
    | ((_, some _), calls) => calls
    | ((none, none), calls) => calls
    | ((some securityGroup, none), calls) => calls ++ reconcile c securityGroup details

/-! ## What the scan of `findOldCidr` looks at, stated on lists -/

/-- A permission whose from-port and to-port both equal `port`. -/
def onPort (port : Int) (p : IpPermission) : Bool :=
  decide (p.FromPort = port) && decide (p.ToPort = port)

/-- The ranges of the permissions on `port`, in rule order then range order. -/
def portRangesOf (port : Int) (perms : List IpPermission) : List IpRange :=
  (perms.filter (onPort port)).flatMap (fun p => p.IpRanges)

/-- The ranges of the group on `port`, in rule order then range order. -/
def portRanges (sg : SecurityGroup) (port : Int) : List IpRange :=
  portRangesOf port sg.IpPermissions

/-- The description of the range is present and contains the identity. -/
def carriesIdentity (uuid : String) (r : IpRange) : Bool :=
  match r.Description with
  | some description => Contains description uuid
  | none => false

/-- The ranges on `port` whose description contains the identity. -/
def taggedRanges (sg : SecurityGroup) (port : Int) (uuid : String) : List IpRange :=
  (portRanges sg port).filter (carriesIdentity uuid)

/-- A range the scan can stop at: description containing the identity, CIDR present. -/
def isMatch (uuid : String) (r : IpRange) : Bool :=
  carriesIdentity uuid r && r.CidrIp.isSome

/-- The matches on `port`, in rule order then range order. -/
def matchingRanges (sg : SecurityGroup) (port : Int) (uuid : String) : List IpRange :=
  (portRanges sg port).filter (isMatch uuid)

/-- The CIDR of the first match on `port`, if there is a match. -/
def firstMatchCidr (sg : SecurityGroup) (port : Int) (uuid : String) : Option String :=
  (matchingRanges sg port uuid).head?.bind (fun r => r.CidrIp)

/-- The text `cidr` is the CIDR of a range of the group that sits in a permission whose
from-port and to-port both equal `port` and whose description contains `uuid`. -/
def MatchedCidr (sg : SecurityGroup) (port : Int) (uuid cidr : String) : Prop :=
  ∃ p ∈ sg.IpPermissions, p.FromPort = port ∧ p.ToPort = port ∧
    ∃ r ∈ p.IpRanges, r.CidrIp = some cidr ∧
      ∃ description, r.Description = some description ∧ Contains description uuid = true

/-- The CIDR of the first range on `port`, in rule order then range order, that has a
description and a CIDR, whatever the description says. -/
def firstDescribedCidr (sg : SecurityGroup) (port : Int) : Option String :=
  ((portRanges sg port).find? (fun r => r.Description.isSome && r.CidrIp.isSome)).bind
    (fun r => r.CidrIp)

/-! ## The effect of the requests on the group

The service is not part of the repository. The two properties that speak of the group
after a run take the effect of a request to be this: a revoke request removes, from the
permissions with the from-port and to-port of the request, the ranges with the CIDR of the
request; an authorize request adds the permission of the request to the group. Where the
service lists the added permission is not fixed: it is put at index `pos`, any number. -/

/-- Modelled from the spec: the effect of the service, which is not in the repository.
The permissions after the ranges with CIDR `cidr` left the permissions on
`fromPort`-`toPort`. -/
def removeRange (fromPort toPort : Int) (cidr : Option String) (perms : List IpPermission) :
    List IpPermission :=
  perms.map fun p =>
    if p.FromPort = fromPort ∧ p.ToPort = toPort then
      { p with IpRanges := p.IpRanges.filter (fun r => decide (r.CidrIp ≠ cidr)) }
    else p

/-- Modelled from the spec: the effect of the service on a revoke request, the revoked
(port, CIDR) ranges are removed. -/
def applyRevoke (input : RevokeSecurityGroupIngressInput) (perms : List IpPermission) :
    List IpPermission :=
  input.IpPermissions.foldl
    (fun acc q => q.IpRanges.foldl (fun acc r => removeRange q.FromPort q.ToPort r.CidrIp acc) acc)
    perms

/-- Modelled from the spec: the effect of the service on an authorize request, the
permission of the request is added, listed at index `pos` (at the end when `pos` is past
the end). -/
def applyAuthorize (pos : Nat) (input : AuthorizeSecurityGroupIngressInput)
    (perms : List IpPermission) : List IpPermission :=
  perms.take pos ++ input.IpPermissions ++ perms.drop pos

/-- Modelled from the spec: the group after one request took effect; a request for
another group leaves it as it is. -/
def applyCall (pos : Nat) (sg : SecurityGroup) : Call → SecurityGroup
  | .describe _ => sg
  | .revoke input =>
    if input.GroupId = some sg.GroupId then
      { sg with IpPermissions := applyRevoke input sg.IpPermissions }
    else sg
  | .authorize input =>
    if input.GroupId = some sg.GroupId then
      { sg with IpPermissions := applyAuthorize pos input sg.IpPermissions }
    else sg

/-- Modelled from the spec: the group after the requests of a run took effect, in the
order they were sent. -/
def applyCalls (pos : Nat) (sg : SecurityGroup) (calls : List Call) : SecurityGroup :=
  calls.foldl (applyCall pos) sg

/-! ## Concrete machines, clients and groups -/

/-- A client whose every mutation succeeds and whose lookup finds no group. -/
def okClient : Ec2Client :=
  { DescribeSecurityGroups := fun _ => .ok [],
    AuthorizeSecurityGroupIngress := fun _ => none,
    RevokeSecurityGroupIngress := fun _ => none }

/-- A client whose revoke requests fail. -/
def revokeFailsClient : Ec2Client :=
  { DescribeSecurityGroups := fun _ => .ok [],
    AuthorizeSecurityGroupIngress := fun _ => none,
    RevokeSecurityGroupIngress := fun _ => some "InvalidPermission.NotFound" }

/-- A machine of user alice on 2026-11-04 with public IP 5.6.7.8, the identity file
present and holding `abc-123`, started with `--security-group-id sg-1 --port 22`. -/
def exampleEnv : Env :=
  { securityGroupIdParam := "sg-1", securityGroupNameParam := "", useNameTag := false,
    portParam := "22", dateFormat := "2006-01-02",
    Atoi := fun s => if s = "22" then .ok 22 else .error "invalid syntax",
    GetIp := .ok "5.6.7.8",
    LocalConfig := fun name => "/home/alice/.config/" ++ name,
    MakePath := fun _ => none,
    CurrentUser := .ok "alice",
    NowFormat := fun layout =>
      if layout = "2006-01-02" then "2026-11-04"
      else if layout = "02/01/2006" then "04/11/2026" else layout,
    NewString := "abc-123",
    files := [("/home/alice/.config/aws-sg-updater/uuid", "abc-123")],
    CreateErr := fun _ => none,
    WriteFails := none,
    ReadErr := fun _ => none }

/-- The details `getEntryDetails` builds on `exampleEnv`. -/
def exampleDetails : EntryDetails :=
  { Port := 22, Cidr := "5.6.7.8/32", Uuid := "abc-123",
    Description := "alice 2026-11-04 port:22 - abc-123" }

/-- A group with one rule of the tool on port 22, for the address 1.2.3.4. -/
def staleGroup : SecurityGroup :=
  { GroupId := "sg-1", GroupName := "office",
    IpPermissions :=
      [{ IpProtocol := some "tcp", FromPort := 22, ToPort := 22,
         IpRanges := [{ CidrIp := some "1.2.3.4/32",
                        Description := some "alice 2026-10-01 port:22 - abc-123" }] }] }

/-- A group whose rule of the tool on port 22 is for the current address 5.6.7.8. -/
def currentGroup : SecurityGroup :=
  { GroupId := "sg-1", GroupName := "office",
    IpPermissions :=
      [{ IpProtocol := some "tcp", FromPort := 22, ToPort := 22,
         IpRanges := [{ CidrIp := some "5.6.7.8/32",
                        Description := some "alice 2026-10-01 port:22 - abc-123" }] }] }

/-- A group with a rule on port 22 that carries another description. -/
def foreignGroup : SecurityGroup :=
  { GroupId := "sg-1", GroupName := "office",
    IpPermissions :=
      [{ IpProtocol := some "tcp", FromPort := 22, ToPort := 22,
         IpRanges := [{ CidrIp := some "9.9.9.9/32", Description := some "office vpn" }] }] }

/-- A group with two rules of the tool on port 22, for the addresses 1.2.3.4 and
4.3.2.1. -/
def twoStaleGroup : SecurityGroup :=
  { GroupId := "sg-1", GroupName := "office",
    IpPermissions :=
      [{ IpProtocol := some "tcp", FromPort := 22, ToPort := 22,
         IpRanges := [{ CidrIp := some "1.2.3.4/32",
                        Description := some "alice 2026-10-01 port:22 - abc-123" },
                      { CidrIp := some "4.3.2.1/32",
                        Description := some "alice 2026-09-01 port:22 - abc-123" }] }] }

/-- A client whose lookup returns two groups. -/
def twoGroupsClient : Ec2Client :=
  { DescribeSecurityGroups := fun _ => .ok [staleGroup, currentGroup],
    AuthorizeSecurityGroupIngress := fun _ => none,
    RevokeSecurityGroupIngress := fun _ => none }

/-- The machine of `exampleEnv` before the first run: no identity file yet, and the
write into the created file fails before anything is written. -/
def freshEnvWriteFails : Env :=
  { exampleEnv with files := [], WriteFails := some 0 }

/-- The machine of `exampleEnv` started with `--date-format 02/01/2006`. -/
def dayFirstEnv : Env :=
  { exampleEnv with dateFormat := "02/01/2006" }

/-- A client whose lookup returns the one group `currentGroup`. -/
def currentGroupClient : Ec2Client :=
  { DescribeSecurityGroups := fun _ => .ok [currentGroup],
    AuthorizeSecurityGroupIngress := fun _ => none,
    RevokeSecurityGroupIngress := fun _ => none }

/-! ## Lemmas on the scan -/

theorem containsAt_nil (l : List Char) : containsAt [] l = true := by
  cases l <;> simp [containsAt, List.isPrefixOf]

theorem Contains_empty (s : String) : Contains s "" = true := by
  simp [Contains, containsAt_nil]

theorem containsAt_append_left (sub l : List Char) : ∀ pre : List Char,
    containsAt sub l = true → containsAt sub (pre ++ l) = true
  | [], h => by simpa using h
  | c :: pre, h => by
    have ih := containsAt_append_left sub l pre h
    simp only [List.cons_append, containsAt, Bool.or_eq_true]
    exact Or.inr ih

theorem containsAt_self_append (sub post : List Char) : containsAt sub (sub ++ post) = true := by
  cases h : sub ++ post with
  | nil =>
    have : sub = [] := (List.append_eq_nil.mp h).1
    simp [containsAt, this]
  | cons c cs =>
    simp only [containsAt, Bool.or_eq_true]
    left
    rw [← h, List.isPrefixOf_iff_prefix]
    exact List.prefix_append sub post

theorem Contains_append_right (pre s : String) : Contains (pre ++ s) s = true := by
  have h := containsAt_append_left s.data (s.data ++ []) pre.data (containsAt_self_append _ _)
  simpa [Contains, String.data_append] using h

theorem head?_filter_eq_find? {α : Type} (q : α → Bool) (l : List α) :
    (l.filter q).head? = l.find? q := by
  induction l with
  | nil => rfl
  | cons a l ih =>
    by_cases ha : q a = true
    · simp [List.filter_cons, List.find?_cons, ha]
    · simp [List.filter_cons, List.find?_cons, ha, ih]

theorem findInRanges_eq (uuid : String) (rs : List IpRange) :
    findInRanges uuid rs = (rs.filter (isMatch uuid)).head?.bind (fun r => r.CidrIp) := by
  induction rs with
  | nil => rfl
  | cons r rs ih =>
    rcases r with ⟨cidr, desc⟩
    cases desc with
    | none => simpa [findInRanges, isMatch, carriesIdentity] using ih
    | some d =>
      cases cidr with
      | none => simpa [findInRanges, isMatch, carriesIdentity] using ih
      | some cd =>
        by_cases hc : Contains d uuid = true
        · simp [findInRanges, isMatch, carriesIdentity, hc]
        · simpa [findInRanges, isMatch, carriesIdentity, hc] using ih

theorem head?_filter_isMatch_cidr (uuid : String) (rs : List IpRange) (r : IpRange)
    (h : (rs.filter (isMatch uuid)).head? = some r) : ∃ cidr, r.CidrIp = some cidr := by
  have hm : r ∈ rs.filter (isMatch uuid) := List.mem_of_mem_head? h
  have := (List.mem_filter.mp hm).2
  simp only [isMatch, Bool.and_eq_true] at this
  exact Option.isSome_iff_exists.mp this.2

theorem findInPermissions_eq (details : EntryDetails) (perms : List IpPermission) :
    findInPermissions details perms =
      (((portRangesOf details.Port perms).filter (isMatch details.Uuid)).head?.bind
        (fun r => r.CidrIp)).getD "" := by
  induction perms with
  | nil => rfl
  | cons p ps ih =>
    by_cases h1 : p.FromPort = details.Port
    · by_cases h2 : p.ToPort = details.Port
      · have hon : onPort details.Port p = true := by simp [onPort, h1, h2]
        simp only [findInPermissions, h1, h2, ne_eq, not_true_eq_false, if_false,
          findInRanges_eq]
        simp only [portRangesOf, List.filter_cons, hon, if_true, List.flatMap_cons,
          List.filter_append, List.head?_append]
        cases hh : (List.filter (isMatch details.Uuid) p.IpRanges).head? with
        | none =>
          simp only [Option.bind_none, Option.none_or]
          simpa [portRangesOf] using ih
        | some r =>
          obtain ⟨cidr, hc⟩ := head?_filter_isMatch_cidr _ _ _ hh
          simp [hc]
      · have hon : onPort details.Port p = false := by simp [onPort, h2]
        simp only [findInPermissions, h1, h2, ne_eq, not_true_eq_false, not_false_eq_true,
          if_true, if_false]
        simpa [portRangesOf, List.filter_cons, hon] using ih
    · have hon : onPort details.Port p = false := by simp [onPort, h1]
      simp only [findInPermissions, h1, ne_eq, not_false_eq_true, if_true]
      simpa [portRangesOf, List.filter_cons, hon] using ih

/-- The scan of `findOldCidr` returns the CIDR of the first match, or the empty text. -/
theorem findOldCidr_eq (sg : SecurityGroup) (details : EntryDetails) :
    findOldCidr sg details = (firstMatchCidr sg details.Port details.Uuid).getD "" := by
  simp [findOldCidr, firstMatchCidr, matchingRanges, portRanges, findInPermissions_eq]

theorem mem_portRangesOf {port : Int} {perms : List IpPermission} {r : IpRange} :
    r ∈ portRangesOf port perms ↔
      ∃ p ∈ perms, p.FromPort = port ∧ p.ToPort = port ∧ r ∈ p.IpRanges := by
  simp only [portRangesOf, List.mem_flatMap, List.mem_filter, onPort, Bool.and_eq_true,
    decide_eq_true_eq]
  constructor
  · rintro ⟨p, ⟨hp, h1, h2⟩, hr⟩
    exact ⟨p, hp, h1, h2, hr⟩
  · rintro ⟨p, hp, h1, h2, hr⟩
    exact ⟨p, ⟨hp, h1, h2⟩, hr⟩

theorem firstMatchCidr_matched {sg : SecurityGroup} {port : Int} {uuid cidr : String}
    (h : firstMatchCidr sg port uuid = some cidr) : MatchedCidr sg port uuid cidr := by
  unfold firstMatchCidr at h
  cases hh : (matchingRanges sg port uuid).head? with
  | none => simp [hh] at h
  | some r =>
    rw [hh] at h
    have hm : r ∈ matchingRanges sg port uuid := List.mem_of_mem_head? hh
    obtain ⟨hr, hmatch⟩ := List.mem_filter.mp hm
    obtain ⟨p, hp, h1, h2, hrp⟩ := mem_portRangesOf.mp hr
    simp only [isMatch, carriesIdentity, Bool.and_eq_true] at hmatch
    refine ⟨p, hp, h1, h2, r, hrp, by simpa using h, ?_⟩
    cases hd : r.Description with
    | none => simp [hd] at hmatch
    | some d => exact ⟨d, rfl, by simpa [hd] using hmatch.1⟩

/-- The three exits of `cleanupOldEntryIfExists`; the answer to the revoke request
changes neither the flag nor the requests sent. -/
theorem cleanupOldEntryIfExists_eq (c : Ec2Client) (sg : SecurityGroup) (d : EntryDetails) :
    cleanupOldEntryIfExists c sg d =
      if findOldCidr sg d = "" then (true, [])
      else if findOldCidr sg d = d.Cidr then (false, [])
      else (true, [Call.revoke (revokeInput sg.GroupId d.Port (findOldCidr sg d))]) := by
  unfold cleanupOldEntryIfExists RevokeSecurityGroupIngress
  simp only []
  split_ifs
  · rfl
  · rfl
  · cases c.RevokeSecurityGroupIngress (revokeInput sg.GroupId d.Port (findOldCidr sg d)) <;> rfl

theorem reconcile_eq (c : Ec2Client) (sg : SecurityGroup) (d : EntryDetails) :
    reconcile c sg d =
      if findOldCidr sg d = "" then
        [Call.authorize (authorizeInput sg.GroupId d.Port d.Cidr d.Description)]
      else if findOldCidr sg d = d.Cidr then []
      else [Call.revoke (revokeInput sg.GroupId d.Port (findOldCidr sg d)),
            Call.authorize (authorizeInput sg.GroupId d.Port d.Cidr d.Description)] := by
  unfold reconcile
  rw [cleanupOldEntryIfExists_eq]
  split_ifs <;> rfl

theorem append_slash32_ne_empty (ip : String) : ip ++ "/32" ≠ "" := by
  intro h
  have := congrArg String.length h
  simp only [String.length_append] at this
  have h32 : "/32".length = 3 := by decide
  have h0 : "".length = 0 := by decide
  omega

/-- The details the program builds: the CIDR ends in `/32`, so it is not empty, and
the description ends in the identity, so it contains it. -/
theorem getEntryDetails_ok {env : Env} {d : EntryDetails}
    (h : (getEntryDetails env).1 = .ok d) :
    d.Cidr ≠ "" ∧ Contains d.Description d.Uuid = true := by
  unfold getEntryDetails at h
  split at h
  · simp at h
  · split at h
    · simp at h
    · rename_i cidr hc
      split at h
      · simp at h
      · split at h
        · simp at h
        · rename_i description hb
          simp only [Except.ok.injEq] at h
          subst h
          simp only
          constructor
          · unfold getCidr at hc
            split at hc
            · simp at hc
            · simp only [Except.ok.injEq] at hc
              subst hc
              exact append_slash32_ne_empty _
          · unfold buildDescription at hb
            simp only at hb
            split at hb
            · simp at hb
            · simp only [Except.ok.injEq] at hb
              subst hb
              exact Contains_append_right _ _

/-! ## The reconciler -/

/-- C1: whatever `findOldCidr` returns, if not the empty text, is the CIDR of a range that
sits in a permission whose from-port and to-port equal the target port and whose
description contains the identity; and every request `cleanupOldEntryIfExists` sends is a
revoke request for the target port and for such a CIDR. -/
theorem cleanup_revokes_only_matched_cidr (c : Ec2Client) (sg : SecurityGroup)
    (d : EntryDetails) :
    (findOldCidr sg d ≠ "" → MatchedCidr sg d.Port d.Uuid (findOldCidr sg d)) ∧
    ∀ call ∈ (cleanupOldEntryIfExists c sg d).2,
      ∃ cidr, MatchedCidr sg d.Port d.Uuid cidr ∧
        call = Call.revoke (revokeInput sg.GroupId d.Port cidr) := by
  have key : findOldCidr sg d ≠ "" → MatchedCidr sg d.Port d.Uuid (findOldCidr sg d) := by
    intro hne
    apply firstMatchCidr_matched
    rw [findOldCidr_eq] at hne ⊢
    cases hf : firstMatchCidr sg d.Port d.Uuid with
    | none => simp [hf] at hne
    | some cidr => simp
  refine ⟨key, ?_⟩
  intro call hcall
  rw [cleanupOldEntryIfExists_eq] at hcall
  split_ifs at hcall with h1 h2
  · simp at hcall
  · simp at hcall
  · simp only [List.mem_singleton] at hcall
    exact ⟨findOldCidr sg d, key h1, hcall⟩

theorem cleanup_revokes_only_matched_cidr_witness :
    MatchedCidr staleGroup 22 "abc-123" "1.2.3.4/32" ∧
    ∃ cidr, MatchedCidr staleGroup 22 "abc-123" cidr ∧
      Call.revoke (revokeInput "sg-1" 22 "1.2.3.4/32") =
        Call.revoke (revokeInput "sg-1" 22 cidr) :=
  ⟨(cleanup_revokes_only_matched_cidr okClient staleGroup exampleDetails).1 (by decide),
   (cleanup_revokes_only_matched_cidr okClient staleGroup exampleDetails).2
     (Call.revoke (revokeInput "sg-1" 22 "1.2.3.4/32")) (by decide)⟩

/-- C2: when the matched range, the first one on the target port whose description
contains the identity, has a CIDR (a text that is not empty, the empty text being the
value `findOldCidr` returns when it found nothing) that differs from the target CIDR,
the run sends exactly the revoke request for (group id, port, old CIDR) followed by the
authorize request for (group id, port, new CIDR, description), whatever the client
answers to the revoke request: a failed revoke does not prevent the authorize. -/
theorem reconcile_revokes_then_authorizes (c : Ec2Client) (sg : SecurityGroup)
    (d : EntryDetails) (old : String)
    (hmatch : firstMatchCidr sg d.Port d.Uuid = some old)
    (hne : old ≠ "") (hdiff : old ≠ d.Cidr) :
    reconcile c sg d =
      [Call.revoke (revokeInput sg.GroupId d.Port old),
       Call.authorize (authorizeInput sg.GroupId d.Port d.Cidr d.Description)] := by
  have hf : findOldCidr sg d = old := by simp [findOldCidr_eq, hmatch]
  rw [reconcile_eq, hf, if_neg hne, if_neg hdiff]

theorem reconcile_revokes_then_authorizes_witness :
    revokeFailsClient.RevokeSecurityGroupIngress (revokeInput "sg-1" 22 "1.2.3.4/32") =
      some "InvalidPermission.NotFound" ∧
    reconcile revokeFailsClient staleGroup exampleDetails =
      [Call.revoke (revokeInput "sg-1" 22 "1.2.3.4/32"),
       Call.authorize (authorizeInput "sg-1" 22 "5.6.7.8/32"
        "alice 2026-11-04 port:22 - abc-123")] ∧
    okClient.RevokeSecurityGroupIngress (revokeInput "sg-1" 22 "1.2.3.4/32") = none ∧
    reconcile okClient staleGroup exampleDetails =
      [Call.revoke (revokeInput "sg-1" 22 "1.2.3.4/32"),
       Call.authorize (authorizeInput "sg-1" 22 "5.6.7.8/32"
        "alice 2026-11-04 port:22 - abc-123")] :=
  ⟨rfl,
   reconcile_revokes_then_authorizes revokeFailsClient staleGroup exampleDetails "1.2.3.4/32"
     (by decide) (by decide) (by decide),
   rfl,
   reconcile_revokes_then_authorizes okClient staleGroup exampleDetails "1.2.3.4/32"
     (by decide) (by decide) (by decide)⟩

/-- C3: when the first match on the target port has the target CIDR, the target being
the one `getEntryDetails` built, `cleanupOldEntryIfExists` sends no request and returns
false, the run sends no request, and `updateSecurityGroup` sends nothing beyond the
lookup of the group. -/
theorem reconcile_same_cidr_sends_nothing (c : Ec2Client) (env : Env) (sg : SecurityGroup)
    (d : EntryDetails) (hd : (getEntryDetails env).1 = .ok d)
    (hmatch : firstMatchCidr sg d.Port d.Uuid = some d.Cidr) :
    cleanupOldEntryIfExists c sg d = (false, []) ∧ reconcile c sg d = [] ∧
    ∀ lookup, getSecurityGroup c env.securityGroupIdParam env.securityGroupNameParam
        env.useNameTag = ((some sg, none), lookup) → updateSecurityGroup c env = lookup := by
  have hcidr : d.Cidr ≠ "" := (getEntryDetails_ok hd).1
  have hf : findOldCidr sg d = d.Cidr := by simp [findOldCidr_eq, hmatch]
  have hrec : reconcile c sg d = [] := by
    rw [reconcile_eq, hf, if_neg hcidr, if_pos rfl]
  refine ⟨?_, hrec, ?_⟩
  · rw [cleanupOldEntryIfExists_eq, hf, if_neg hcidr, if_pos rfl]
  · intro lookup hg
    simp [updateSecurityGroup, hd, hg, hrec]

theorem reconcile_same_cidr_sends_nothing_witness :
    cleanupOldEntryIfExists currentGroupClient currentGroup exampleDetails = (false, []) ∧
    reconcile currentGroupClient currentGroup exampleDetails = [] ∧
    updateSecurityGroup currentGroupClient exampleEnv =
      [Call.describe { GroupIds := ["sg-1"], Filters := [] }] :=
  ⟨(reconcile_same_cidr_sends_nothing currentGroupClient exampleEnv currentGroup exampleDetails
      rfl (by decide)).1,
   (reconcile_same_cidr_sends_nothing currentGroupClient exampleEnv currentGroup exampleDetails
      rfl (by decide)).2.1,
   (reconcile_same_cidr_sends_nothing currentGroupClient exampleEnv currentGroup exampleDetails
      rfl (by decide)).2.2 [Call.describe { GroupIds := ["sg-1"], Filters := [] }]
      (by decide)⟩

/-- C4: when no range on the target port has a description containing the identity,
`cleanupOldEntryIfExists` sends no request and the run sends exactly one request, the
authorize request for the target port, the target CIDR and the built description. -/
theorem reconcile_no_match_authorizes_once (c : Ec2Client) (sg : SecurityGroup)
    (d : EntryDetails) (hnone : taggedRanges sg d.Port d.Uuid = []) :
    (cleanupOldEntryIfExists c sg d).2 = [] ∧
    reconcile c sg d =
      [Call.authorize (authorizeInput sg.GroupId d.Port d.Cidr d.Description)] := by
  have hm : matchingRanges sg d.Port d.Uuid = [] := by
    unfold matchingRanges
    unfold taggedRanges at hnone
    rw [List.filter_eq_nil_iff] at hnone ⊢
    intro r hr
    have := hnone r hr
    simp [isMatch, this]
  have hf : findOldCidr sg d = "" := by simp [findOldCidr_eq, firstMatchCidr, hm]
  constructor
  · rw [cleanupOldEntryIfExists_eq, if_pos hf]
  · rw [reconcile_eq, if_pos hf]

theorem reconcile_no_match_authorizes_once_witness :
    (cleanupOldEntryIfExists okClient foreignGroup exampleDetails).2 = [] ∧
    reconcile okClient foreignGroup exampleDetails =
      [Call.authorize (authorizeInput "sg-1" 22 "5.6.7.8/32"
        "alice 2026-11-04 port:22 - abc-123")] :=
  reconcile_no_match_authorizes_once okClient foreignGroup exampleDetails (by decide)

/-- C10: with the empty identity, `findOldCidr` returns the CIDR of the first range on the
target port that has a description and a CIDR, whatever the description says (the empty
text when there is none), and `cleanupOldEntryIfExists` sends a revoke request for that
CIDR whenever it is not empty and differs from the target CIDR. -/
theorem empty_identity_matches_every_description (c : Ec2Client) (sg : SecurityGroup)
    (d : EntryDetails) (hempty : d.Uuid = "") :
    findOldCidr sg d = (firstDescribedCidr sg d.Port).getD "" ∧
    ∀ cidr, firstDescribedCidr sg d.Port = some cidr → cidr ≠ "" → cidr ≠ d.Cidr →
      (cleanupOldEntryIfExists c sg d).2 =
        [Call.revoke (revokeInput sg.GroupId d.Port cidr)] := by
  have hm : isMatch "" = fun r => r.Description.isSome && r.CidrIp.isSome := by
    funext r
    cases hdesc : r.Description <;> simp [isMatch, carriesIdentity, hdesc, Contains_empty]
  have hfirst : firstMatchCidr sg d.Port d.Uuid = firstDescribedCidr sg d.Port := by
    simp only [firstMatchCidr, matchingRanges, firstDescribedCidr, hempty, hm,
      head?_filter_eq_find?]
  have hf : findOldCidr sg d = (firstDescribedCidr sg d.Port).getD "" := by
    rw [findOldCidr_eq, hfirst]
  refine ⟨hf, ?_⟩
  intro cidr hc hne hdiff
  have hf2 : findOldCidr sg d = cidr := by simp [hf, hc]
  rw [cleanupOldEntryIfExists_eq, hf2, if_neg hne, if_neg hdiff]

theorem empty_identity_matches_every_description_witness :
    findOldCidr foreignGroup { exampleDetails with Uuid := "" } = "9.9.9.9/32" ∧
    (cleanupOldEntryIfExists okClient foreignGroup { exampleDetails with Uuid := "" }).2 =
      [Call.revoke (revokeInput "sg-1" 22 "9.9.9.9/32")] :=
  ⟨(empty_identity_matches_every_description okClient foreignGroup
      { exampleDetails with Uuid := "" } rfl).1,
   (empty_identity_matches_every_description okClient foreignGroup
      { exampleDetails with Uuid := "" } rfl).2 "9.9.9.9/32" (by decide) (by decide)
      (by decide)⟩

/-! ## The group after a run -/

theorem portRangesOf_append (port : Int) (l₁ l₂ : List IpPermission) :
    portRangesOf port (l₁ ++ l₂) = portRangesOf port l₁ ++ portRangesOf port l₂ := by
  simp [portRangesOf, List.filter_append, List.flatMap_append]

theorem portRangesOf_removeRange (port : Int) (cidr : Option String)
    (perms : List IpPermission) :
    portRangesOf port (removeRange port port cidr perms) =
      (portRangesOf port perms).filter (fun r => decide (r.CidrIp ≠ cidr)) := by
  induction perms with
  | nil => rfl
  | cons p ps ih =>
    have hcons : removeRange port port cidr (p :: ps) =
        (if p.FromPort = port ∧ p.ToPort = port then
          { p with IpRanges := p.IpRanges.filter (fun r => decide (r.CidrIp ≠ cidr)) }
        else p) :: removeRange port port cidr ps := rfl
    have hsplit : ∀ (q : IpPermission) (qs : List IpPermission),
        portRangesOf port (q :: qs) = portRangesOf port [q] ++ portRangesOf port qs :=
      fun q qs => portRangesOf_append port [q] qs
    rw [hcons, hsplit, ih, hsplit p ps, List.filter_append]
    congr 1
    by_cases h : p.FromPort = port ∧ p.ToPort = port
    · have hon : onPort port p = true := by simp [onPort, h.1, h.2]
      have hon2 : onPort port
          { p with IpRanges := p.IpRanges.filter (fun r => decide (r.CidrIp ≠ cidr)) } = true := by
        simp [onPort, h.1, h.2]
      rw [if_pos h]
      simp only [portRangesOf, List.filter_cons, List.filter_nil, hon, hon2, if_true,
        List.flatMap_cons, List.flatMap_nil, List.append_nil]
    · have hon : onPort port p = false := by
        simp only [onPort, Bool.and_eq_false_iff, decide_eq_false_iff_not]
        by_cases h1 : p.FromPort = port
        · exact Or.inr (fun h2 => h ⟨h1, h2⟩)
        · exact Or.inl h1
      simp [portRangesOf, List.filter_cons, h, hon]

theorem filter_portRangesOf_applyAuthorize (q : IpRange → Bool) (pos : Nat) (port : Int)
    (input : AuthorizeSecurityGroupIngressInput) (perms : List IpPermission) :
    (portRangesOf port (applyAuthorize pos input perms)).filter q =
      (portRangesOf port (perms.take pos)).filter q ++
        (portRangesOf port input.IpPermissions).filter q ++
        (portRangesOf port (perms.drop pos)).filter q := by
  simp [applyAuthorize, portRangesOf_append, List.filter_append]

theorem filter_portRangesOf_take_drop (q : IpRange → Bool) (pos : Nat) (port : Int)
    (perms : List IpPermission) :
    (portRangesOf port (perms.take pos)).filter q ++ (portRangesOf port (perms.drop pos)).filter q =
      (portRangesOf port perms).filter q := by
  rw [← List.filter_append, ← portRangesOf_append, List.take_append_drop]

theorem portRangesOf_authorizeInput (gid : String) (port : Int) (cidr desc : String) :
    portRangesOf port (authorizeInput gid port cidr desc).IpPermissions =
      [{ CidrIp := some cidr, Description := some desc }] := by
  simp [portRangesOf, authorizeInput, onPort, List.filter_cons]

/-- Listing the authorized permission anywhere in a group without a match leaves the
authorized range as the one match. -/
theorem matching_after_authorize (pos : Nat) (perms : List IpPermission) (gid : String)
    (port : Int) (cidr desc uuid : String)
    (hnone : (portRangesOf port perms).filter (isMatch uuid) = [])
    (hdesc : Contains desc uuid = true) :
    (portRangesOf port (applyAuthorize pos (authorizeInput gid port cidr desc) perms)).filter
        (isMatch uuid) = [{ CidrIp := some cidr, Description := some desc }] := by
  have hsplit := filter_portRangesOf_take_drop (isMatch uuid) pos port perms
  rw [hnone, List.append_eq_nil] at hsplit
  rw [filter_portRangesOf_applyAuthorize, hsplit.1, hsplit.2, portRangesOf_authorizeInput]
  simp [isMatch, carriesIdentity, hdesc, List.filter_cons]

theorem length_after_authorize (q : IpRange → Bool) (pos : Nat) (perms : List IpPermission)
    (gid : String) (port : Int) (cidr desc : String) :
    ((portRangesOf port (applyAuthorize pos (authorizeInput gid port cidr desc) perms)).filter
        q).length ≤ ((portRangesOf port perms).filter q).length + 1 := by
  have hsplit := congrArg List.length (filter_portRangesOf_take_drop q pos port perms)
  rw [List.length_append] at hsplit
  rw [filter_portRangesOf_applyAuthorize, portRangesOf_authorizeInput, List.length_append,
    List.length_append]
  have hone : (List.filter q [({ CidrIp := some cidr, Description := some desc } : IpRange)]).length
      ≤ 1 := List.length_filter_le q _
  omega

theorem applyCalls_authorize (pos : Nat) (sg : SecurityGroup) (port : Int) (cidr desc : String) :
    applyCalls pos sg [Call.authorize (authorizeInput sg.GroupId port cidr desc)] =
      { sg with IpPermissions :=
          applyAuthorize pos (authorizeInput sg.GroupId port cidr desc) sg.IpPermissions } := by
  simp [applyCalls, applyCall, authorizeInput]

theorem applyCalls_revoke_authorize (pos : Nat) (sg : SecurityGroup) (port : Int)
    (old cidr desc : String) :
    applyCalls pos sg [Call.revoke (revokeInput sg.GroupId port old),
        Call.authorize (authorizeInput sg.GroupId port cidr desc)] =
      { sg with IpPermissions :=
          (applyAuthorize pos (authorizeInput sg.GroupId port cidr desc)
            (removeRange port port (some old) sg.IpPermissions)) } := by
  simp [applyCalls, applyCall, authorizeInput, revokeInput, applyRevoke]

theorem matchingRanges_cases {sg : SecurityGroup} {port : Int} {uuid : String}
    (hone : (matchingRanges sg port uuid).length ≤ 1)
    (hne : firstMatchCidr sg port uuid ≠ some "") :
    (matchingRanges sg port uuid = [] ∧ firstMatchCidr sg port uuid = none) ∨
    ∃ r cidr, matchingRanges sg port uuid = [r] ∧ r.CidrIp = some cidr ∧ cidr ≠ "" ∧
      firstMatchCidr sg port uuid = some cidr := by
  cases hm : matchingRanges sg port uuid with
  | nil => exact Or.inl ⟨rfl, by simp [firstMatchCidr, hm]⟩
  | cons r rest =>
    right
    have hrest : rest = [] := by
      rw [hm] at hone
      simp only [List.length_cons] at hone
      exact List.length_eq_zero.mp (by omega)
    obtain ⟨cidr, hc⟩ := head?_filter_isMatch_cidr uuid (portRanges sg port) r
      (by rw [← matchingRanges, hm]; rfl)
    have hfirst : firstMatchCidr sg port uuid = some cidr := by
      simp [firstMatchCidr, hm, hc]
    refine ⟨r, cidr, by rw [hrest], hc, ?_, hfirst⟩
    intro h0
    exact hne (by rw [hfirst, h0])

theorem matchingRanges_eq_tagged {sg : SecurityGroup} {port : Int} {uuid : String}
    (hcidr : ∀ r ∈ taggedRanges sg port uuid, ∃ cidr, r.CidrIp = some cidr ∧ cidr ≠ "") :
    matchingRanges sg port uuid = taggedRanges sg port uuid := by
  unfold matchingRanges taggedRanges
  apply List.filter_congr
  intro r hr
  by_cases hcar : carriesIdentity uuid r = true
  · obtain ⟨cidr, hc, _⟩ := hcidr r (List.mem_filter.mpr ⟨hr, hcar⟩)
    simp [isMatch, hcar, hc]
  · simp only [Bool.not_eq_true] at hcar
    simp [isMatch, hcar]

theorem filter_filter_swap (q₁ q₂ : IpRange → Bool) (l : List IpRange) :
    (l.filter q₁).filter q₂ = (l.filter q₂).filter q₁ := by
  rw [List.filter_filter, List.filter_filter]
  apply List.filter_congr
  intro r _
  exact Bool.and_comm _ _

/-- C5, as stated, fails: in `twoStaleGroup` two rules on port 22 carry the identity. The
first run revokes 1.2.3.4/32 and authorizes 5.6.7.8/32; with both requests in effect and the
new permission listed after the old one, the second run with the same details finds
4.3.2.1/32 first and sends a revoke request and an authorize request again. -/
theorem second_run_revokes_next_stale_rule :
    (getEntryDetails exampleEnv).1 = .ok exampleDetails ∧
    reconcile okClient twoStaleGroup exampleDetails =
      [Call.revoke (revokeInput "sg-1" 22 "1.2.3.4/32"),
       Call.authorize (authorizeInput "sg-1" 22 "5.6.7.8/32"
        "alice 2026-11-04 port:22 - abc-123")] ∧
    reconcile okClient
        (applyCalls 1 twoStaleGroup (reconcile okClient twoStaleGroup exampleDetails))
        exampleDetails =
      [Call.revoke (revokeInput "sg-1" 22 "4.3.2.1/32"),
       Call.authorize (authorizeInput "sg-1" 22 "5.6.7.8/32"
        "alice 2026-11-04 port:22 - abc-123")] :=
  ⟨rfl, by decide, by decide⟩

/-- C5, amended: when the group holds at most one match on the target port (a range whose
description contains the identity and whose CIDR is present), and that CIDR is not the
empty text, then after a first run with the details `getEntryDetails` built, its
requests in effect and the new permission listed anywhere, a second run with the same
port, CIDR and identity sends no request. -/
theorem second_run_sends_nothing (c₁ c₂ : Ec2Client) (env : Env) (sg : SecurityGroup)
    (d d₂ : EntryDetails) (pos : Nat)
    (hd : (getEntryDetails env).1 = .ok d)
    (hport : d₂.Port = d.Port) (hcidr : d₂.Cidr = d.Cidr) (huuid : d₂.Uuid = d.Uuid)
    (hone : (matchingRanges sg d.Port d.Uuid).length ≤ 1)
    (hne : firstMatchCidr sg d.Port d.Uuid ≠ some "") :
    reconcile c₂ (applyCalls pos sg (reconcile c₁ sg d)) d₂ = [] := by
  obtain ⟨hnonempty, hdesc⟩ := getEntryDetails_ok hd
  have hsame : ∀ sg₂ : SecurityGroup, firstMatchCidr sg₂ d.Port d.Uuid = some d.Cidr →
      reconcile c₂ sg₂ d₂ = [] := by
    intro sg₂ h
    have hf : findOldCidr sg₂ d₂ = d₂.Cidr := by
      rw [findOldCidr_eq, hport, huuid, h, hcidr]
      rfl
    rw [reconcile_eq, hf, if_neg (by rw [hcidr]; exact hnonempty), if_pos rfl]
  have hnew : ∀ perms : List IpPermission,
      (portRangesOf d.Port perms).filter (isMatch d.Uuid) = [] →
      firstMatchCidr
        { sg with IpPermissions :=
            (applyAuthorize pos (authorizeInput sg.GroupId d.Port d.Cidr d.Description) perms) }
        d.Port d.Uuid = some d.Cidr := by
    intro perms hnone
    simp only [firstMatchCidr, matchingRanges, portRanges]
    rw [matching_after_authorize pos perms sg.GroupId d.Port d.Cidr d.Description d.Uuid hnone
      hdesc]
    rfl
  rcases matchingRanges_cases hone hne with ⟨hnil, hnone⟩ | ⟨r, old, hr, hrc, hold, hfirst⟩
  · have hf : findOldCidr sg d = "" := by rw [findOldCidr_eq, hnone]; rfl
    rw [reconcile_eq c₁ sg d, if_pos hf, applyCalls_authorize]
    exact hsame _ (hnew _ hnil)
  · have hf : findOldCidr sg d = old := by rw [findOldCidr_eq, hfirst]; rfl
    by_cases hsameCidr : old = d.Cidr
    · rw [reconcile_eq c₁ sg d, hf, if_neg hold, if_pos hsameCidr]
      exact hsame sg (by rw [hfirst, hsameCidr])
    · rw [reconcile_eq c₁ sg d, hf, if_neg hold, if_neg hsameCidr, applyCalls_revoke_authorize]
      apply hsame
      apply hnew
      rw [portRangesOf_removeRange, filter_filter_swap]
      have hm : (portRangesOf d.Port sg.IpPermissions).filter (isMatch d.Uuid) = [r] := hr
      rw [hm]
      simp [List.filter_cons, hrc]

theorem second_run_sends_nothing_witness :
    reconcile okClient (applyCalls 1 staleGroup (reconcile okClient staleGroup exampleDetails))
      exampleDetails = [] :=
  second_run_sends_nothing okClient okClient exampleEnv staleGroup exampleDetails
    exampleDetails 1 rfl rfl rfl rfl (by decide) (by decide)

/-- C6, as stated, fails: `twoStaleGroup` starts with two rules on port 22 that carry the
identity; the run revokes one of them and authorizes a new one, and with both requests in
effect the group again holds two ranges on port 22 whose description contains the
identity, wherever the new permission is listed. -/
theorem two_tagged_ranges_after_run :
    reconcile okClient twoStaleGroup exampleDetails =
      [Call.revoke (revokeInput "sg-1" 22 "1.2.3.4/32"),
       Call.authorize (authorizeInput "sg-1" 22 "5.6.7.8/32"
        "alice 2026-11-04 port:22 - abc-123")] ∧
    (taggedRanges (applyCalls 0 twoStaleGroup (reconcile okClient twoStaleGroup exampleDetails))
      22 "abc-123").length = 2 ∧
    (taggedRanges (applyCalls 1 twoStaleGroup (reconcile okClient twoStaleGroup exampleDetails))
      22 "abc-123").length = 2 := by
  decide

/-- C6, amended: when the group starts with at most one range on the target port whose
description contains the identity, and that range has a CIDR that is not the empty
text, then after the run, its requests in effect and the new permission listed anywhere,
the group holds at most one range on the target port whose description contains the
identity. -/
theorem at_most_one_tagged_range_preserved (c : Ec2Client) (sg : SecurityGroup)
    (d : EntryDetails) (pos : Nat)
    (hone : (taggedRanges sg d.Port d.Uuid).length ≤ 1)
    (hcidr : ∀ r ∈ taggedRanges sg d.Port d.Uuid, ∃ cidr, r.CidrIp = some cidr ∧ cidr ≠ "") :
    (taggedRanges (applyCalls pos sg (reconcile c sg d)) d.Port d.Uuid).length ≤ 1 := by
  have heq := matchingRanges_eq_tagged hcidr
  have hne : firstMatchCidr sg d.Port d.Uuid ≠ some "" := by
    intro h
    obtain ⟨p, _, _, _, r, hr, hrc, desc, hdesc, hcont⟩ := firstMatchCidr_matched h
    have hmem : r ∈ taggedRanges sg d.Port d.Uuid := by
      refine List.mem_filter.mpr ⟨mem_portRangesOf.mpr ⟨p, ‹_›, ‹_›, ‹_›, hr⟩, ?_⟩
      simp [carriesIdentity, hdesc, hcont]
    obtain ⟨cidr, hc, hc0⟩ := hcidr r hmem
    rw [hrc] at hc
    exact hc0 (Option.some.inj hc).symm
  have hbound : ∀ perms : List IpPermission,
      (portRangesOf d.Port perms).filter (carriesIdentity d.Uuid) = [] →
      (taggedRanges
        { sg with IpPermissions :=
            (applyAuthorize pos (authorizeInput sg.GroupId d.Port d.Cidr d.Description) perms) }
        d.Port d.Uuid).length ≤ 1 := by
    intro perms hnone
    have := length_after_authorize (carriesIdentity d.Uuid) pos perms sg.GroupId d.Port d.Cidr
      d.Description
    rw [hnone] at this
    simpa [taggedRanges, portRanges] using this
  rcases matchingRanges_cases (by rw [heq]; exact hone) hne with
    ⟨hnil, hnone⟩ | ⟨r, old, hr, hrc, hold, hfirst⟩
  · have hf : findOldCidr sg d = "" := by rw [findOldCidr_eq, hnone]; rfl
    rw [reconcile_eq, if_pos hf, applyCalls_authorize]
    apply hbound
    rw [heq] at hnil
    exact hnil
  · have hf : findOldCidr sg d = old := by rw [findOldCidr_eq, hfirst]; rfl
    by_cases hsameCidr : old = d.Cidr
    · rw [reconcile_eq, hf, if_neg hold, if_pos hsameCidr]
      exact hone
    · rw [reconcile_eq, hf, if_neg hold, if_neg hsameCidr, applyCalls_revoke_authorize]
      apply hbound
      rw [portRangesOf_removeRange, filter_filter_swap]
      have hm : (portRangesOf d.Port sg.IpPermissions).filter (carriesIdentity d.Uuid) = [r] := by
        rw [heq] at hr
        exact hr
      rw [hm]
      simp [List.filter_cons, hrc]

theorem at_most_one_tagged_range_preserved_witness :
    (taggedRanges (applyCalls 0 staleGroup (reconcile okClient staleGroup exampleDetails))
      22 "abc-123").length ≤ 1 :=
  at_most_one_tagged_range_preserved okClient staleGroup exampleDetails 0 (by decide)
    (by decide)

/-! ## Security-group resolution -/

/-- With an id given and two or more groups returned by the lookup,
`getSecurityGroupSilent` returns no group and its own error; `getSecurityGroup` returns
no group and the not-found error. -/
theorem getSecurityGroup_two_or_more (c : Ec2Client) (id name : String) (tag : Bool)
    (g₁ g₂ : SecurityGroup) (rest : List SecurityGroup) (hid : id ≠ "")
    (hgroups : c.DescribeSecurityGroups { GroupIds := [id], Filters := [] } =
      .ok (g₁ :: g₂ :: rest)) :
    (getSecurityGroupSilent c id name tag).1 =
      (none, some "DescribeSecurityGroups bad Results") ∧
    (getSecurityGroup c id name tag).1 = (none, some "Security group not found") := by
  simp [getSecurityGroup, getSecurityGroupSilent, GetSecurityGroupById, getSecurityGroupById,
    hid, hgroups]

/-- With an id given and no group returned by the lookup, `getSecurityGroupSilent`
returns `(nil, nil)` and `getSecurityGroup` the not-found error. -/
theorem getSecurityGroup_zero (c : Ec2Client) (id name : String) (tag : Bool) (hid : id ≠ "")
    (hgroups : c.DescribeSecurityGroups { GroupIds := [id], Filters := [] } = .ok []) :
    (getSecurityGroupSilent c id name tag).1 = (none, none) ∧
    (getSecurityGroup c id name tag).1 = (none, some "Security group not found") := by
  simp [getSecurityGroup, getSecurityGroupSilent, GetSecurityGroupById, getSecurityGroupById,
    hid, hgroups]

/-- With neither id nor name, no request is sent and no group is returned. -/
theorem getSecurityGroup_no_locator (c : Ec2Client) (tag : Bool) :
    getSecurityGroupSilent c "" "" tag =
      ((none, some "Neither security group id nor security group name provided"), []) ∧
    (getSecurityGroup c "" "" tag).2 = [] ∧ (getSecurityGroup c "" "" tag).1.1 = none := by
  simp [getSecurityGroup, getSecurityGroupSilent]

/-- C7, on the code: whenever `getSecurityGroup` returns no group, the error it returns
is the one text `Security group not found`, whatever `getSecurityGroupSilent` reported
(zero groups, two or more groups, no locator, a failed request). -/
theorem getSecurityGroup_every_failure_is_not_found (c : Ec2Client) (id name : String)
    (tag : Bool) (hnone : (getSecurityGroup c id name tag).1.1 = none) :
    (getSecurityGroup c id name tag).1.2 = some "Security group not found" := by
  unfold getSecurityGroup at hnone ⊢
  rcases hs : getSecurityGroupSilent c id name tag with ⟨⟨g, err⟩, calls⟩
  rw [hs] at hnone
  cases g with
  | none => rfl
  | some g => simp at hnone

theorem getSecurityGroup_every_failure_is_not_found_witness :
    (getSecurityGroupSilent twoGroupsClient "sg-1" "" false).1 =
      (none, some "DescribeSecurityGroups bad Results") ∧
    (getSecurityGroupSilent okClient "sg-1" "" false).1 = (none, none) ∧
    (getSecurityGroupSilent okClient "" "" false).1 =
      (none, some "Neither security group id nor security group name provided") ∧
    (getSecurityGroup twoGroupsClient "sg-1" "" false).1.2 = some "Security group not found" ∧
    (getSecurityGroup okClient "sg-1" "" false).1.2 = some "Security group not found" ∧
    (getSecurityGroup okClient "" "" false).1.2 = some "Security group not found" :=
  ⟨by decide, by decide, by decide,
   getSecurityGroup_every_failure_is_not_found twoGroupsClient "sg-1" "" false (by decide),
   getSecurityGroup_every_failure_is_not_found okClient "sg-1" "" false (by decide),
   getSecurityGroup_every_failure_is_not_found okClient "" "" false (by decide)⟩

/-! ## The identity file -/

/-- C8, on the code: when the identity file is absent, `os.Create` succeeds, the write
of the new identifier fails after `n` characters and the file can be read, then
`getPersistedUuid` returns no error: it returns what the file holds, the first `n`
characters of the identifier. -/
theorem getPersistedUuid_ignores_write_failure (env : Env) (uuidFile : String) (n : Nat)
    (hpath : getPersistedUuidFile env = .ok uuidFile)
    (habsent : env.files.lookup uuidFile = none)
    (hcreate : env.CreateErr uuidFile = none)
    (hwrite : env.WriteFails = some n)
    (hread : env.ReadErr uuidFile = none) :
    (getPersistedUuid env).1 = .ok (env.NewString.take n) := by
  simp [getPersistedUuid, hpath, habsent, initializeUuidFile, hcreate, hwrite, readUuidFile,
    putFile, List.lookup, hread]

theorem getPersistedUuid_ignores_write_failure_witness :
    freshEnvWriteFails.files = [] ∧ freshEnvWriteFails.WriteFails = some 0 ∧
    (getPersistedUuid freshEnvWriteFails).1 = .ok "" :=
  ⟨rfl, rfl,
   getPersistedUuid_ignores_write_failure freshEnvWriteFails
     "/home/alice/.config/aws-sg-updater/uuid" 0 rfl rfl rfl rfl rfl⟩

/-! ## The description -/

/-- The layout handed to `getFormattedDate` has no effect on its result. -/
theorem getFormattedDate_ignores_layout (env : Env) (layout : String) :
    getFormattedDate env layout = env.NowFormat "2006-01-02" :=
  rfl

/-- C9, on the code: started with `--date-format 02/01/2006` on 2026-11-04, the current
time formatted with that layout is `04/11/2026`, but `getFormattedDate` returns
`2026-11-04` and `buildDescription` puts that text in the description. -/
theorem date_format_flag_has_no_effect :
    dayFirstEnv.dateFormat = "02/01/2006" ∧
    dayFirstEnv.NowFormat dayFirstEnv.dateFormat = "04/11/2026" ∧
    getFormattedDate dayFirstEnv dayFirstEnv.dateFormat = "2026-11-04" ∧
    buildDescription dayFirstEnv "abc-123" 22 = .ok "alice 2026-11-04 port:22 - abc-123" :=
  ⟨rfl, by decide, by decide, rfl⟩

end AwsSgUpdater
